import Mathlib

/-!
Verification of the controller-to-keyboard/mouse translation engine
(`src/main.rs`).  The engine is embedded shallowly: gamepad events become an
inductive type, axis values are modelled as rationals, and the OS
input-injection sink (`enigo`) is modelled as a recorder — each translated
event yields the list of injection calls the engine performs, in order.
-/

namespace C2K

/-- Gamepad buttons, after `gilrs::Button`. -/
inductive Button where
  | South | East | North | West
  | C | Z
  | LeftTrigger | LeftTrigger2
  | RightTrigger | RightTrigger2
  | Select | Start | Mode
  | LeftThumb | RightThumb
  | DPadUp | DPadDown | DPadLeft | DPadRight
  | Unknown
deriving DecidableEq, Fintype

/-- Gamepad axes, after `gilrs::Axis`. -/
inductive Axis where
  | LeftStickX | LeftStickY | LeftZ
  | RightStickX | RightStickY | RightZ
  | DPadX | DPadY | Unknown
deriving DecidableEq

/-- Keyboard keys used by the program, after `enigo::Key`; `Layout c` is a
layout-dependent character key. -/
inductive Key where
  | Space | Shift | Control | Tab | Escape | F5
  | Layout (c : Char)
deriving DecidableEq

/-- Mouse buttons, after `enigo::MouseButton`. -/
inductive MouseButton where
  | Left | Right | Middle
deriving DecidableEq

/-- One call into the input-injection sink (`enigo`), recorded instead of
performed. -/
inductive Command where
  | keyDown (k : Key)
  | keyUp (k : Key)
  | mouseDown (b : MouseButton)
  | mouseUp (b : MouseButton)
  | mouseMoveRelative (dx dy : ℤ)
  | mouseScrollY (n : ℤ)
deriving DecidableEq

/-- Event payloads, after `gilrs::EventType`.  The `Code` arguments of
`ButtonPressed`/`ButtonReleased`/`AxisChanged` are ignored by the program
(matched with `_`) and are omitted; every payload kind the program ignores
(`ButtonRepeated`, `ButtonChanged`, `Connected`, ...) is collapsed into
`Other`. -/
inductive EventType where
  | ButtonPressed (b : Button)
  | ButtonReleased (b : Button)
  | AxisChanged (a : Axis) (v : ℚ)
  | Other
deriving DecidableEq

/-- A queued gamepad event, after `gilrs::Event`: a controller identifier, a
payload, and a timestamp (the program binds `id`, ignores `time`). -/
structure Event where
  id : Nat
  event : EventType
  time : Nat

/-- Button-to-key table: the twelve `m.insert` calls building `BUTTON_MAP`. -/
def BUTTON_MAP : Button → Option Key
  | .South => some .Space
  | .East => some .Shift
  | .West => some (.Layout 'e')
  | .North => some (.Layout 'e')
  | .DPadUp => some .F5
  | .DPadDown => some (.Layout 'q')
  | .DPadLeft => some (.Layout 'b')
  | .DPadRight => some (.Layout '/')
  | .LeftThumb => some .Control
  | .RightThumb => some (.Layout 'v')
  | .Select => some .Tab
  | .Start => some .Escape
  | _ => none

/-- Button-to-mouse-button table: the two `m.insert` calls building
`MOUSE_BUTTON_MAP`. -/
def MOUSE_BUTTON_MAP : Button → Option MouseButton
  | .RightTrigger2 => some .Left
  | .LeftTrigger2 => some .Right
  | _ => none

/-- Deadzone used for all analog axes: `let deadzone = 0.15`. -/
def deadzone : ℚ := 15 / 100

/-- Pointer sensitivity scalar: `let mouse_speed = 50.0`. -/
def mouse_speed : ℚ := 50

/-- Rust `as i32` cast of a float, as performed by
`(value * mouse_speed) as i32`: truncation toward zero. -/
def truncQ (q : ℚ) : ℤ := if 0 ≤ q then ⌊q⌋ else ⌈q⌉

/-- Translation of one drained event into the sequence of injection calls the
program performs for it — the body of the `match event { ... }` in `main`. -/
def processEvent : EventType → List Command
  | .ButtonPressed b =>
    match b with
    | .LeftTrigger => [.mouseScrollY (-1)]
    | .RightTrigger => [.mouseScrollY 1]
    | _ =>
      match BUTTON_MAP b with
      | some key => [.keyDown key]
      | none =>
        match MOUSE_BUTTON_MAP b with
        | some mouse_button => [.mouseDown mouse_button]
        | none => []
  | .ButtonReleased b =>
    match BUTTON_MAP b with
    | some key => [.keyUp key]
    | none =>
      match MOUSE_BUTTON_MAP b with
      | some mouse_button => [.mouseUp mouse_button]
      | none => []
  | .AxisChanged a v =>
    match a with
    | .LeftStickX =>
      if |v| > deadzone then
        if v > 0 then [.keyDown (.Layout 'd'), .keyUp (.Layout 'a')]
        else [.keyDown (.Layout 'a'), .keyUp (.Layout 'd')]
      else [.keyUp (.Layout 'd'), .keyUp (.Layout 'a')]
    | .LeftStickY =>
      if |v| > deadzone then
        if v > 0 then [.keyDown (.Layout 'w'), .keyUp (.Layout 's')]
        else [.keyDown (.Layout 's'), .keyUp (.Layout 'w')]
      else [.keyUp (.Layout 'w'), .keyUp (.Layout 's')]
    | .RightStickX =>
      if |v| > deadzone then [.mouseMoveRelative (truncQ (v * mouse_speed)) 0]
      else []
    | .RightStickY =>
      if |v| > deadzone then [.mouseMoveRelative 0 (truncQ (-v * mouse_speed))]
      else []
    | _ => []
  | .Other => []

/-- Translation of a whole drained payload sequence, in order. -/
def processEvents (es : List EventType) : List Command :=
  (es.map processEvent).flatten

/-- Draining the event queue: `while let Some(Event { id, event, time: _ }) =
gilrs.next_event()` — `id` is bound but never consulted. -/
def drainEvents (es : List Event) : List Command :=
  (es.map (fun ev => match ev with | ⟨_, e, _⟩ => processEvent e)).flatten

/-- Active-gamepad update at the top of each loop iteration:
`if active_gamepad.is_none() { active_gamepad = gilrs.gamepads().next()... }`. -/
def nextActive (active_gamepad : Option Nat) (available : List Nat) : Option Nat :=
  match active_gamepad with
  | none => available.head?
  | some g => some g

/-- One loop iteration: update the active gamepad, drain and translate all
queued events. -/
def tick (active_gamepad : Option Nat) (available : List Nat) (es : List Event) :
    Option Nat × List Command :=
  (nextActive active_gamepad available, drainEvents es)

/-- Outcome of running `main`: either a fatal initialization panic with its
diagnostic, or the loop running and emitting commands. -/
inductive MainOutcome where
  | fatal (diagnostic : String)
  | running (emitted : List Command)
deriving DecidableEq

/-- Startup and loop of `main`: `Gilrs::new().expect("failed to initialize
gilrs")` panics with its diagnostic before any injection call; `Enigo::new()`
is infallible in this `enigo` version (it returns `Enigo` directly, not a
`Result`), so only the event-source initialization is modelled as fallible. -/
def runMain (gilrsInit : Except String Unit) (es : List Event) : MainOutcome :=
  match gilrsInit with
  | .error e => .fatal ("failed to initialize gilrs: " ++ e)
  | .ok _ => .running (drainEvents es)

/-- Commands emitted by a run outcome; a fatal startup emits none. -/
def emittedCommands : MainOutcome → List Command
  | .fatal _ => []
  | .running cs => cs

/-- Effect of one recorded injection call on the derived "which keys are down"
state. -/
def applyCmd (s : Key → Bool) : Command → (Key → Bool)
  | .keyDown k => fun k' => if k' = k then true else s k'
  | .keyUp k => fun k' => if k' = k then false else s k'
  | _ => s

/-- Derived key state after replaying a recorded command stream. -/
def keyStateAfter (s : Key → Bool) (cs : List Command) : Key → Bool :=
  cs.foldl applyCmd s

/-- Initial derived key state: no key is down. -/
def allUp : Key → Bool := fun _ => false

/-- The pair of opposing keys digitally emulated by an axis: positive-direction
key first. -/
def opposingKeys : Axis → Option (Key × Key)
  | .LeftStickX => some (.Layout 'd', .Layout 'a')
  | .LeftStickY => some (.Layout 'w', .Layout 's')
  | _ => none

/-- Key assignments of the canonical table in the specification (section 4.1),
written from the spec's words, to be compared with `BUTTON_MAP`. -/
def specKeyFor : Button → Option Key
  | .South => some .Space
  | .East => some .Shift
  | .West => some (.Layout 'e')
  | .North => some (.Layout 'e')
  | .DPadUp => some .F5
  | .DPadDown => some (.Layout 'q')
  | .DPadLeft => some (.Layout 'b')
  | .DPadRight => some (.Layout '/')
  | .LeftThumb => some .Control
  | .RightThumb => some (.Layout 'v')
  | .Select => some .Tab
  | .Start => some .Escape
  | _ => none

/-- Mouse-button assignments of the canonical table in the specification
(section 4.1), written from the spec's words, to be compared with
`MOUSE_BUTTON_MAP`. -/
def specMouseButtonFor : Button → Option MouseButton
  | .RightTrigger2 => some .Left
  | .LeftTrigger2 => some .Right
  | _ => none

/-- Rounding to the nearest integer with halves away from zero, following the
spec's `movement = round(value * 50.0)` (Rust `f32::round` semantics); written
from the spec's words, to be compared with the code's `as i32` cast. -/
def specRound (q : ℚ) : ℤ := if 0 ≤ q then ⌊q + 1/2⌋ else ⌈q - 1/2⌉

/-- After one left-stick-X event, from any prior derived key state, at most one
of 'd'/'a' is down: whichever branch runs, the event ends by releasing one of
the two. -/
lemma lsx_step (s : Key → Bool) (v : ℚ) :
    keyStateAfter s (processEvent (.AxisChanged .LeftStickX v)) (Key.Layout 'd') = false ∨
    keyStateAfter s (processEvent (.AxisChanged .LeftStickX v)) (Key.Layout 'a') = false := by
  by_cases h1 : |v| > deadzone
  · by_cases h2 : v > 0
    · right; simp [processEvent, h1, h2, keyStateAfter, applyCmd]
    · left; simp [processEvent, h1, h2, keyStateAfter, applyCmd]
  · right; simp [processEvent, h1, keyStateAfter, applyCmd]

/-- After one left-stick-Y event, from any prior derived key state, at most one
of 'w'/'s' is down. -/
lemma lsy_step (s : Key → Bool) (v : ℚ) :
    keyStateAfter s (processEvent (.AxisChanged .LeftStickY v)) (Key.Layout 'w') = false ∨
    keyStateAfter s (processEvent (.AxisChanged .LeftStickY v)) (Key.Layout 's') = false := by
  by_cases h1 : |v| > deadzone
  · by_cases h2 : v > 0
    · right; simp [processEvent, h1, h2, keyStateAfter, applyCmd]
    · left; simp [processEvent, h1, h2, keyStateAfter, applyCmd]
  · right; simp [processEvent, h1, keyStateAfter, applyCmd]

/-- Translating a concatenation of payloads concatenates the emitted streams. -/
lemma processEvents_append (l1 l2 : List EventType) :
    processEvents (l1 ++ l2) = processEvents l1 ++ processEvents l2 := by
  simp [processEvents]

/-- Replaying a concatenated command stream composes the derived key states. -/
lemma keyStateAfter_append (s : Key → Bool) (c1 c2 : List Command) :
    keyStateAfter s (c1 ++ c2) = keyStateAfter (keyStateAfter s c1) c2 := by
  simp [keyStateAfter, List.foldl_append]

/-- If every single event of an axis leaves at most one of the keys `kp`/`kn`
down from any state, then any run of events on that axis does so from the
all-up start state. -/
lemma axis_run_aux (a : Axis) (kp kn : Key)
    (hstep : ∀ (s : Key → Bool) (v : ℚ),
      keyStateAfter s (processEvent (.AxisChanged a v)) kp = false ∨
      keyStateAfter s (processEvent (.AxisChanged a v)) kn = false)
    (ws : List ℚ) :
    keyStateAfter allUp (processEvents (ws.map (EventType.AxisChanged a))) kp = false ∨
    keyStateAfter allUp (processEvents (ws.map (EventType.AxisChanged a))) kn = false := by
  induction ws using List.reverseRecOn with
  | nil => left; rfl
  | append_singleton xs x ih =>
    rw [List.map_append, processEvents_append, keyStateAfter_append]
    have h := hstep (keyStateAfter allUp (processEvents (xs.map (EventType.AxisChanged a)))) x
    simpa [processEvents] using h

/-- Draining forgets controller identifiers and timestamps: the emitted stream
is a function of the payload sequence alone. -/
lemma drainEvents_eq (es : List Event) :
    drainEvents es = processEvents (es.map Event.event) := by
  simp only [drainEvents, processEvents, List.map_map, Function.comp_def]

/-- Truncation toward zero does not increase absolute value beyond an integer
bound on the input. -/
lemma truncQ_abs_le (q : ℚ) (B : ℤ) (h : |q| ≤ (B : ℚ)) : |truncQ q| ≤ B := by
  rcases le_or_lt 0 q with hq | hq
  · rw [truncQ, if_pos hq, abs_of_nonneg (by exact_mod_cast Int.floor_nonneg.mpr hq)]
    calc ⌊q⌋ ≤ ⌊(B:ℚ)⌋ := Int.floor_le_floor ((abs_le.mp h).2)
      _ = B := Int.floor_intCast B
  · rw [truncQ, if_neg (not_le.mpr hq)]
    rw [abs_of_nonpos (Int.ceil_le.mpr (by exact_mod_cast hq.le))]
    have : (-B : ℤ) ≤ ⌈q⌉ := by
      calc (-B : ℤ) = ⌈((-B : ℤ) : ℚ)⌉ := (Int.ceil_intCast _).symm
        _ ≤ ⌈q⌉ := Int.ceil_le_ceil (by push_cast; linarith [(abs_le.mp h).1])
    omega

/-- Claim C1: for every sequence of axis-changed events on one
digital-emulation axis (left-stick-X with 'd'/'a', left-stick-Y with 'w'/'s'),
after the engine finishes processing each event — i.e. after every prefix of
the event sequence — at most one of the two opposing keys is down in the state
derived from the recorded key-down/key-up command stream. -/
theorem claim_C1 (a : Axis) (kp kn : Key) (h : opposingKeys a = some (kp, kn))
    (vs : List ℚ) (n : ℕ) :
    ¬(keyStateAfter allUp (processEvents (((vs.take n)).map (EventType.AxisChanged a))) kp = true ∧
      keyStateAfter allUp (processEvents (((vs.take n)).map (EventType.AxisChanged a))) kn = true) := by
  have hrun :
      keyStateAfter allUp (processEvents (((vs.take n)).map (EventType.AxisChanged a))) kp = false ∨
      keyStateAfter allUp (processEvents (((vs.take n)).map (EventType.AxisChanged a))) kn = false := by
    cases a with
    | LeftStickX =>
      simp only [opposingKeys, Option.some.injEq, Prod.mk.injEq] at h
      obtain ⟨h1, h2⟩ := h
      subst h1; subst h2
      exact axis_run_aux _ _ _ lsx_step (vs.take n)
    | LeftStickY =>
      simp only [opposingKeys, Option.some.injEq, Prod.mk.injEq] at h
      obtain ⟨h1, h2⟩ := h
      subst h1; subst h2
      exact axis_run_aux _ _ _ lsy_step (vs.take n)
    | _ => simp [opposingKeys] at h
  rintro ⟨hp, hn⟩
  rcases hrun with h' | h' <;> simp_all

/-- Witness for C1: the left-stick-X readings 0.8 then 0.05 never leave both
'd' and 'a' down. -/
theorem claim_C1_witness :
    opposingKeys Axis.LeftStickX = some (Key.Layout 'd', Key.Layout 'a') ∧
    ¬(keyStateAfter allUp (processEvents ((([(8:ℚ)/10, 5/100].take 2)).map
        (EventType.AxisChanged Axis.LeftStickX))) (Key.Layout 'd') = true ∧
      keyStateAfter allUp (processEvents ((([(8:ℚ)/10, 5/100].take 2)).map
        (EventType.AxisChanged Axis.LeftStickX))) (Key.Layout 'a') = true) :=
  ⟨rfl, claim_C1 Axis.LeftStickX _ _ rfl [8/10, 5/100] 2⟩

/-- Claim C2 as amended: outside the deadzone the engine emits a relative
horizontal move of exactly `truncQ (v * 50)` for right-stick-X and a vertical
move of exactly `truncQ (-v * 50)` for right-stick-Y — truncation toward zero
(the code's `as i32` cast), not rounding to nearest. -/
theorem claim_C2 (v : ℚ) (hv : |v| > 15/100) :
    processEvent (.AxisChanged Axis.RightStickX v) =
      [.mouseMoveRelative (truncQ (v * mouse_speed)) 0] ∧
    processEvent (.AxisChanged Axis.RightStickY v) =
      [.mouseMoveRelative 0 (truncQ (-v * mouse_speed))] := by
  have h1 : |v| > deadzone := by rw [deadzone]; exact hv
  constructor <;> simp [processEvent, h1]

/-- Witness for C2: at v = 0.5 the emitted movements are 25 horizontally and
-25 vertically, as the spec's example states (truncation and rounding agree
there). -/
theorem claim_C2_witness :
    |(1:ℚ)/2| > 15/100 ∧
    processEvent (.AxisChanged Axis.RightStickX (1/2)) = [.mouseMoveRelative 25 0] ∧
    processEvent (.AxisChanged Axis.RightStickY (1/2)) = [.mouseMoveRelative 0 (-25)] := by
  have habs : |(1:ℚ)/2| > 15/100 := by
    rw [abs_of_nonneg (by norm_num : (0:ℚ) ≤ 1/2)]; norm_num
  refine ⟨habs, ?_, ?_⟩
  · rw [(claim_C2 (1/2) habs).1, truncQ, mouse_speed,
      if_pos (by norm_num : (0:ℚ) ≤ 1/2 * 50)]
    norm_num
  · rw [(claim_C2 (1/2) habs).2, truncQ, mouse_speed,
      if_neg (by norm_num : ¬(0:ℚ) ≤ -(1/2) * 50)]
    norm_num
    rw [show ((-25:ℚ)) = ((-25:ℤ):ℚ) by norm_num]
    exact Int.ceil_intCast (-25)

/-- Counterexample to C2 as stated: at right-stick-X value 0.75 the spec's
`round(v * 50.0)` is 38, but the engine emits 37 (the cast truncates 37.5
toward zero). -/
theorem claim_C2_counterexample :
    specRound ((3:ℚ)/4 * mouse_speed) = 38 ∧
    processEvent (.AxisChanged Axis.RightStickX (3/4)) = [.mouseMoveRelative 37 0] ∧
    processEvent (.AxisChanged Axis.RightStickX (3/4)) ≠
      [.mouseMoveRelative (specRound ((3:ℚ)/4 * mouse_speed)) 0] := by
  have hr : specRound ((3:ℚ)/4 * mouse_speed) = 38 := by
    rw [specRound, mouse_speed, if_pos (by norm_num : (0:ℚ) ≤ 3/4 * 50)]
    norm_num
  have habs : |(3:ℚ)/4| > deadzone := by
    rw [abs_of_nonneg (by norm_num : (0:ℚ) ≤ 3/4), deadzone]; norm_num
  have hp : processEvent (.AxisChanged Axis.RightStickX (3/4)) = [.mouseMoveRelative 37 0] := by
    simp [processEvent, habs]
    rw [truncQ, mouse_speed, if_pos (by norm_num : (0:ℚ) ≤ 3/4 * 50)]
    norm_num
  exact ⟨hr, hp, by rw [hp, hr]; simp⟩

/-- Claim C3: the event sequence [ButtonPressed(South),
AxisChanged(LeftStickX, 0.8), AxisChanged(LeftStickX, 0.05),
ButtonReleased(South)] yields exactly key-down(Space); key-down('d'),
key-up('a'); key-up('d'), key-up('a'); key-up(Space), in that order. -/
theorem claim_C3 :
    processEvents [.ButtonPressed Button.South,
                   .AxisChanged Axis.LeftStickX (8/10),
                   .AxisChanged Axis.LeftStickX (5/100),
                   .ButtonReleased Button.South] =
      [.keyDown Key.Space,
       .keyDown (Key.Layout 'd'), .keyUp (Key.Layout 'a'),
       .keyUp (Key.Layout 'd'), .keyUp (Key.Layout 'a'),
       .keyUp Key.Space] := by
  have h1 : |(8:ℚ)/10| > deadzone := by
    rw [abs_of_nonneg (by norm_num : (0:ℚ) ≤ 8/10), deadzone]; norm_num
  have h2 : ((8:ℚ)/10) > 0 := by norm_num
  have h3 : ¬(|(5:ℚ)/100| > deadzone) := by
    rw [abs_of_nonneg (by norm_num : (0:ℚ) ≤ 5/100), deadzone]; norm_num
  simp [processEvents, processEvent, BUTTON_MAP, h1, h2, h3]

/-- Claim C4: for any digital-emulation axis and any value with |v| ≤ 0.15,
the engine emits exactly key-up of the positive key followed by key-up of the
negative key — hence no key-down — independently of any prior state (the
translation consults no state). -/
theorem claim_C4 (a : Axis) (kp kn : Key) (h : opposingKeys a = some (kp, kn))
    (v : ℚ) (hv : |v| ≤ 15/100) :
    processEvent (.AxisChanged a v) = [.keyUp kp, .keyUp kn] := by
  have hv' : ¬(|v| > deadzone) := by rw [deadzone]; exact not_lt.mpr hv
  cases a
  case LeftStickX =>
    simp only [opposingKeys, Option.some.injEq, Prod.mk.injEq] at h
    obtain ⟨h1, h2⟩ := h; subst h1; subst h2; simp [processEvent, hv']
  case LeftStickY =>
    simp only [opposingKeys, Option.some.injEq, Prod.mk.injEq] at h
    obtain ⟨h1, h2⟩ := h; subst h1; subst h2; simp [processEvent, hv']
  all_goals simp [opposingKeys] at h

/-- Witness for C4: the left-stick-X reading 0.05 releases both 'd' and 'a'. -/
theorem claim_C4_witness :
    opposingKeys Axis.LeftStickX = some (Key.Layout 'd', Key.Layout 'a') ∧
    |(5:ℚ)/100| ≤ 15/100 ∧
    processEvent (.AxisChanged Axis.LeftStickX (5/100)) =
      [.keyUp (Key.Layout 'd'), .keyUp (Key.Layout 'a')] :=
  ⟨rfl, by rw [abs_of_nonneg (by norm_num : (0:ℚ) ≤ 5/100)]; norm_num,
   claim_C4 Axis.LeftStickX _ _ rfl (5/100)
     (by rw [abs_of_nonneg (by norm_num : (0:ℚ) ≤ 5/100)]; norm_num)⟩

/-- Claim C5 as amended: the button-to-key and button-to-mouse-button tables
are exactly the canonical ones; no button is in both tables; and a button
outside both tables yields no emitted command — except the digital shoulder
bumpers LeftTrigger/RightTrigger, which are outside both tables but emit a
scroll command when pressed. -/
theorem claim_C5 :
    (∀ b : Button, BUTTON_MAP b = specKeyFor b) ∧
    (∀ b : Button, MOUSE_BUTTON_MAP b = specMouseButtonFor b) ∧
    (∀ b : Button, ((BUTTON_MAP b).isSome && (MOUSE_BUTTON_MAP b).isSome) = false) ∧
    (∀ b : Button, b ≠ .LeftTrigger → b ≠ .RightTrigger → BUTTON_MAP b = none →
      MOUSE_BUTTON_MAP b = none →
      processEvent (.ButtonPressed b) = [] ∧ processEvent (.ButtonReleased b) = []) :=
  ⟨by decide, by decide, by decide, by decide⟩

/-- Witness for C5: the unmapped non-bumper button Mode emits nothing when
pressed or released. -/
theorem claim_C5_witness :
    processEvent (.ButtonPressed Button.Mode) = [] ∧
    processEvent (.ButtonReleased Button.Mode) = [] :=
  claim_C5.2.2.2 Button.Mode (by decide) (by decide) (by decide) (by decide)

/-- Counterexample to C5 as stated: LeftTrigger is outside both tables, yet
pressing it emits a command (a scroll unit). -/
theorem claim_C5_counterexample :
    BUTTON_MAP Button.LeftTrigger = none ∧ MOUSE_BUTTON_MAP Button.LeftTrigger = none ∧
    processEvent (.ButtonPressed Button.LeftTrigger) ≠ [] := by decide

/-- Claim C6: pressing the digital left bumper emits exactly one negative
vertical scroll unit and nothing else; the digital right bumper, one positive
unit; releasing either bumper emits nothing. -/
theorem claim_C6 :
    processEvent (.ButtonPressed Button.LeftTrigger) = [.mouseScrollY (-1)] ∧
    processEvent (.ButtonPressed Button.RightTrigger) = [.mouseScrollY 1] ∧
    processEvent (.ButtonReleased Button.LeftTrigger) = [] ∧
    processEvent (.ButtonReleased Button.RightTrigger) = [] :=
  ⟨rfl, rfl, rfl, rfl⟩

/-- Claim C7: on press of a non-bumper button the key table wins when it has
an entry; the mouse-button table is consulted only when the key table has
none; release mirrors this; a button in neither table emits nothing. -/
theorem claim_C7 :
    (∀ (b : Button) (k : Key), BUTTON_MAP b = some k → b ≠ .LeftTrigger → b ≠ .RightTrigger →
      processEvent (.ButtonPressed b) = [.keyDown k]) ∧
    (∀ (b : Button) (mb : MouseButton), BUTTON_MAP b = none → MOUSE_BUTTON_MAP b = some mb →
      b ≠ .LeftTrigger → b ≠ .RightTrigger → processEvent (.ButtonPressed b) = [.mouseDown mb]) ∧
    (∀ (b : Button) (k : Key), BUTTON_MAP b = some k →
      processEvent (.ButtonReleased b) = [.keyUp k]) ∧
    (∀ (b : Button) (mb : MouseButton), BUTTON_MAP b = none → MOUSE_BUTTON_MAP b = some mb →
      processEvent (.ButtonReleased b) = [.mouseUp mb]) ∧
    (∀ b : Button, BUTTON_MAP b = none → MOUSE_BUTTON_MAP b = none → b ≠ .LeftTrigger →
      b ≠ .RightTrigger →
      processEvent (.ButtonPressed b) = [] ∧ processEvent (.ButtonReleased b) = []) := by
  refine ⟨?_, ?_, ?_, ?_, ?_⟩ <;> intro b <;>
    cases b <;> intros <;> simp_all [BUTTON_MAP, MOUSE_BUTTON_MAP, processEvent]

/-- Witness for C7: South maps to Space, so pressing South emits
key-down(Space) and releasing it emits key-up(Space). -/
theorem claim_C7_witness :
    BUTTON_MAP Button.South = some Key.Space ∧
    processEvent (.ButtonPressed Button.South) = [.keyDown Key.Space] ∧
    processEvent (.ButtonReleased Button.South) = [.keyUp Key.Space] :=
  ⟨rfl, claim_C7.1 Button.South Key.Space rfl (by decide) (by decide),
   claim_C7.2.2.1 Button.South Key.Space rfl⟩

/-- Claim C8: when event-source initialization fails, the run terminates
fatally with a diagnostic before the translation loop, and no command is
emitted.  (In this source the injection sink's constructor is infallible —
`Enigo::new()` returns `Enigo` directly — so the sink half of the claim has no
failing case.) -/
theorem claim_C8 (msg : String) (es : List Event) :
    runMain (Except.error msg) es =
      MainOutcome.fatal ("failed to initialize gilrs: " ++ msg) ∧
    emittedCommands (runMain (Except.error msg) es) = [] :=
  ⟨rfl, rfl⟩

/-- Witness for C8: a concrete failing initialization terminates with the
diagnostic and emits nothing, even with events queued. -/
theorem claim_C8_witness :
    runMain (Except.error "boom") [⟨0, .ButtonPressed Button.South, 0⟩] =
      MainOutcome.fatal ("failed to initialize gilrs: " ++ "boom") ∧
    emittedCommands (runMain (Except.error "boom") [⟨0, .ButtonPressed Button.South, 0⟩]) = [] :=
  claim_C8 "boom" [⟨0, .ButtonPressed Button.South, 0⟩]

/-- Claim C9: the emitted command stream of a tick depends only on the payload
sequence — never on the per-event controller identifiers, the timestamps, the
active-controller value, or which controllers are enumerated as available. -/
theorem claim_C9 (es₁ es₂ : List Event) (h : es₁.map Event.event = es₂.map Event.event)
    (ag₁ ag₂ : Option Nat) (av₁ av₂ : List Nat) :
    (tick ag₁ av₁ es₁).2 = (tick ag₂ av₂ es₂).2 := by
  simp [tick, drainEvents_eq, h]

/-- Witness for C9: two ticks whose single events differ in controller id and
timestamp, with different active-controller values and enumerations, emit the
same commands. -/
theorem claim_C9_witness :
    ([⟨0, .ButtonPressed Button.South, 0⟩] : List Event).map Event.event =
      ([⟨7, .ButtonPressed Button.South, 3⟩] : List Event).map Event.event ∧
    (tick none [] [⟨0, .ButtonPressed Button.South, 0⟩]).2 =
      (tick (some 5) [9] [⟨7, .ButtonPressed Button.South, 3⟩]).2 :=
  ⟨rfl, claim_C9 _ _ rfl none (some 5) [] [9]⟩

/-- Claim C10: for right-stick values in [-1, 1] every emitted relative move is
bounded by 50 in absolute value along its own axis, is zero along the
orthogonal axis, and inside the deadzone no move is emitted at all. -/
theorem claim_C10 (v : ℚ) (h1 : -1 ≤ v) (h2 : v ≤ 1) :
    (∀ dx dy : ℤ, Command.mouseMoveRelative dx dy ∈
        processEvent (.AxisChanged Axis.RightStickX v) → |dx| ≤ 50 ∧ dy = 0) ∧
    (∀ dx dy : ℤ, Command.mouseMoveRelative dx dy ∈
        processEvent (.AxisChanged Axis.RightStickY v) → dx = 0 ∧ |dy| ≤ 50) ∧
    (|v| ≤ 15/100 → processEvent (.AxisChanged Axis.RightStickX v) = [] ∧
      processEvent (.AxisChanged Axis.RightStickY v) = []) := by
  have hv1 : |v| ≤ 1 := abs_le.mpr ⟨h1, h2⟩
  by_cases hdz : |v| > deadzone
  · refine ⟨?_, ?_, ?_⟩
    · intro dx dy hmem
      simp [processEvent, hdz] at hmem
      obtain ⟨hdx, hdy⟩ := hmem
      subst hdx; subst hdy
      refine ⟨?_, rfl⟩
      apply truncQ_abs_le
      rw [mouse_speed]
      calc |v * 50| = |v| * 50 := by
            rw [abs_mul, abs_of_nonneg (by norm_num : (0:ℚ) ≤ 50)]
        _ ≤ 1 * 50 := mul_le_mul_of_nonneg_right hv1 (by norm_num)
        _ = ((50:ℤ):ℚ) := by norm_num
    · intro dx dy hmem
      simp [processEvent, hdz] at hmem
      obtain ⟨hdx, hdy⟩ := hmem
      subst hdx; subst hdy
      refine ⟨rfl, ?_⟩
      apply truncQ_abs_le
      rw [mouse_speed]
      calc |(-(v * 50))| = |v| * 50 := by
            rw [abs_neg, abs_mul, abs_of_nonneg (by norm_num : (0:ℚ) ≤ 50)]
        _ ≤ 1 * 50 := mul_le_mul_of_nonneg_right hv1 (by norm_num)
        _ = ((50:ℤ):ℚ) := by norm_num
    · intro habs
      rw [deadzone] at hdz
      linarith
  · refine ⟨?_, ?_, fun _ => ⟨by simp [processEvent, hdz], by simp [processEvent, hdz]⟩⟩
    · intro dx dy hmem
      simp [processEvent, hdz] at hmem
    · intro dx dy hmem
      simp [processEvent, hdz] at hmem

/-- Witness for C10: the in-deadzone reading 0.1 produces no mouse move on
either right-stick axis. -/
theorem claim_C10_witness :
    processEvent (.AxisChanged Axis.RightStickX (1/10)) = [] ∧
    processEvent (.AxisChanged Axis.RightStickY (1/10)) = [] :=
  (claim_C10 (1/10) (by norm_num) (by norm_num)).2.2
    (by rw [abs_of_nonneg (by norm_num : (0:ℚ) ≤ 1/10)]; norm_num)

end C2K
